import Mathlib

/-!
Verification development for the batched transit-network state engine
(`simulation/transit_time_estimator.py`): the per-scenario network state
(`RouteGenBatchState`), its mutating operations (`shortest_path_action`,
`add_new_routes`, `replace_routes`, `clear_routes`, `reset_dones`,
`_update_on_routes`), the cost modules (`MyCostModule`, `NikolicCostModule`
with the shared `_cost_helper`), and the `check_for_duplicate_routes` utility.

Every batched tensor operation in the source acts independently on each
scenario of the batch, so the embedding models the state of a single
scenario; matrices of the padded size `M x M` become total functions
`Nat -> Nat -> _` (only indices below `n` are meaningful), float tensors
become exact rationals, `inf` entries live in `WithTop Rat`, node-index
rows padded with `-1` become exact `List Nat` values, and the source's
`assert` failures become `Option.none` results.

The graph-algorithm primitives imported from `torch_utils`
(`floyd_warshall`, `reconstruct_all_paths`, `get_route_edge_matrix`,
`get_route_leg_times`) are part of the repository but outside the file
under analysis; they are modelled from their specification as noted on
each definition.  The lazily cached `shortest_path_sequences` and the
optional per-route ridership attribution (which depends on the external
`aggregate_edge_features`) are not modelled; reconstructed shortest-path
node sequences are instead supplied as explicit inputs to the action.
-/

namespace TransitSim

/-- Travel-time matrices carry `inf` entries; model them in `WithTop Rat`. -/
abbrev TMat := Nat → Nat → WithTop ℚ

/-- Modelled from the spec: `floyd_warshall` from `torch_utils` (outside the
analysed file) is an all-pairs shortest-path solver over a dense matrix with
`inf` for unreachable pairs, returning next-hop and distance matrices.  One
relaxation pass of the standard algorithm through intermediate node `k`. -/
def fwStep (p : (Nat → Nat → Nat) × TMat) (k : Nat) : (Nat → Nat → Nat) × TMat :=
  (fun i j => if p.2 i k + p.2 k j < p.2 i j then p.1 i k else p.1 i j,
   fun i j => min (p.2 i j) (p.2 i k + p.2 k j))

/-- Modelled from the spec: the all-pairs shortest-path solver
(`floyd_warshall` in `torch_utils`), iterating the relaxation over all
intermediate nodes below `n`.  The initial next-hop of a finite direct edge
is its destination. -/
def floydWarshall (n : Nat) (m : TMat) : (Nat → Nat → Nat) × TMat :=
  (List.range n).foldl fwStep (fun i j => if m i j < ⊤ then j else 0, m)

/-- Modelled from the spec: length of the stop sequence reconstructed by
following next-hop pointers (`reconstruct_all_paths` in `torch_utils`),
with fuel to bound the recursion. -/
def pathLenFuel (nx : Nat → Nat → Nat) (j : Nat) : Nat → Nat → Nat
  | 0, _ => 0
  | fuel + 1, i => if i = j then 1 else 1 + pathLenFuel nx j fuel (nx i j)

/-- Modelled from the spec: the matrix of reconstructed path lengths
(number of nodes on the shortest path) for every node pair. -/
def pathLens (n : Nat) (nx : Nat → Nat → Nat) : Nat → Nat → Nat :=
  fun i j => pathLenFuel nx j (n + 1) i

/-- Raw shortest-path distances over a route matrix. -/
def rawTT (n : Nat) (m : TMat) : TMat := (floydWarshall n m).2

/-- Transfer counts derived in `_update_on_routes`: reconstructed path
length minus 2, clamped at 0, and set to 0 where there is no path. -/
def derivedNTransfers (n : Nat) (m : TMat) : Nat → Nat → Nat :=
  fun i j =>
    if rawTT n m i j < ⊤ then pathLens n (floydWarshall n m).1 i j - 2 else 0

/-- Boolean reachability derived in `_update_on_routes`:
`has_path = transit_times < inf`, computed before transfer penalties. -/
def derivedHasPath (n : Nat) (m : TMat) : Nat → Nat → Bool :=
  fun i j => decide (rawTT n m i j < ⊤)

/-- Final transfer-inclusive transit times derived in `_update_on_routes`:
raw shortest-path times plus `n_transfers * transfer_time_s`. -/
def derivedTT (n : Nat) (transferTime : ℚ) (m : TMat) : TMat :=
  fun i j => rawTT n m i j + ((derivedNTransfers n m i j : ℚ) * transferTime : ℚ)

/-- Modelled from the spec: direct-ride times from the start node `x` of a
route suffix, accumulating drive time per leg and `mean_stop_time` per
intermediate stop (part of `get_route_edge_matrix` in `torch_utils`). -/
def ridePairs (drive : Nat → Nat → ℚ) (stopTime : ℚ) (x : Nat) :
    Nat → ℚ → List Nat → List (Nat × Nat × ℚ)
  | _, _, [] => []
  | prev, acc, y :: rest =>
    (x, y, acc + drive prev y) ::
      ridePairs drive stopTime x y (acc + drive prev y + stopTime) rest

/-- Modelled from the spec: all ordered stop pairs of one route together
with their direct-ride times. -/
def routePairsList (drive : Nat → Nat → ℚ) (stopTime : ℚ) :
    List Nat → List (Nat × Nat × ℚ)
  | [] => []
  | x :: rest =>
    ridePairs drive stopTime x x 0 rest ++ routePairsList drive stopTime rest

/-- Modelled from the spec: `get_route_edge_matrix` from `torch_utils` —
the best direct-ride time between any two stops on the same route, `inf`
where no single route connects the pair, mirrored along reversed routes
with transposed drive times when `symmetric_routes` is set. -/
def routeEdgeMatrix (routes : List (List Nat)) (drive : Nat → Nat → ℚ)
    (stopTime : ℚ) (sym : Bool) : TMat :=
  let prs :=
    (routes.map (routePairsList drive stopTime)).flatten ++
      (if sym then
        ((routes.map List.reverse).map
          (routePairsList (fun a b => drive b a) stopTime)).flatten
      else [])
  fun i j =>
    prs.foldl
      (fun acc pr =>
        if pr.1 = i ∧ pr.2.1 = j then min acc ((pr.2.2 : ℚ) : WithTop ℚ)
        else acc)
      ⊤

/-- Modelled from the spec: sum of per-leg travel times of one route, one
leg per consecutive stop pair, each leg charged its drive time plus the
per-stop dwell time (`get_route_leg_times` in `torch_utils`). -/
def legsTime (drive : Nat → Nat → ℚ) (stopTime : ℚ) : List Nat → ℚ
  | a :: b :: rest => (drive a b + stopTime) + legsTime drive stopTime (b :: rest)
  | _ => 0

/-- Total running time of a set of routes (`get_total_route_time`): leg
times summed over all routes, plus the return legs over the transposed
drive-time matrix when `symmetric_routes` is set. -/
def routesTime (drive : Nat → Nat → ℚ) (stopTime : ℚ) (sym : Bool)
    (routes : List (List Nat)) : ℚ :=
  (routes.map (legsTime drive stopTime)).sum +
    if sym then (routes.map (legsTime (fun a b => drive b a) stopTime)).sum
    else 0

/-- The `route_mat` and `transit_times` value of a freshly constructed
scenario: `0` on the diagonal, `inf` elsewhere. -/
def initRouteMat : TMat := fun i j => if i = j then 0 else ⊤

/-- The `directly_connected` and `has_path` value of a freshly constructed
scenario: the identity matrix. -/
def eyeBool : Nat → Nat → Bool := fun i j => decide (i = j)

/-- Per-scenario slice of `RouteGenBatchState`: the per-scenario graph
data, configuration, and all mutable per-scenario arrays of
`ExtraStateData`.  `totalRouteTime` is the stored
`extra_data.total_route_time` (finished routes only); the source's
`total_route_time` property adds `currentRouteTime` on top of it. -/
structure ScenState where
  n : Nat
  driveTimes : Nat → Nat → ℚ
  demand : Nat → Nat → ℚ
  meanStopTime : ℚ
  transferTime : ℚ
  symmetricRoutes : Bool
  nRoutesToPlan : Nat
  minRouteLen : Nat
  maxRouteLen : Nat
  demandTimeWeight : ℚ
  routeTimeWeight : ℚ
  baseValidTerms : Nat → Nat → Bool
  validTerms : Nat → Nat → Bool
  finishedRoutes : List (List Nat)
  currentRoute : List Nat
  currentRouteTime : ℚ
  totalRouteTime : ℚ
  routeMat : TMat
  directlyConnected : Nat → Nat → Bool
  transitTimes : TMat
  hasPath : Nat → Nat → Bool
  routeNexts : Nat → Nat → Nat
  nTransfers : Nat → Nat → Nat

/-- The source's `total_route_time` property: stored finished-route time
plus the in-progress route's running time. -/
def ScenState.fullRouteTime (s : ScenState) : ℚ :=
  s.totalRouteTime + s.currentRouteTime

/-- The source's `is_done`: `n_routes_left_to_plan == 0`, i.e. the number
of finished routes equals the number of routes to plan. -/
def ScenState.isDone (s : ScenState) : Bool :=
  decide (s.finishedRoutes.length = s.nRoutesToPlan)

/-- Construction of one scenario of the batch (`RouteGenBatchState.__init__`):
empty routes, identity connectivity, `inf` off-diagonal route and transit
matrices, zeroed times, next-hop and transfer matrices. -/
def initState (n : Nat) (drive demand : Nat → Nat → ℚ) (mst tts : ℚ)
    (sym : Bool) (toPlan minLen maxLen : Nat) (bvt : Nat → Nat → Bool)
    (dtw rtw : ℚ) : ScenState :=
  { n := n
    driveTimes := drive
    demand := demand
    meanStopTime := mst
    transferTime := tts
    symmetricRoutes := sym
    nRoutesToPlan := toPlan
    minRouteLen := minLen
    maxRouteLen := maxLen
    demandTimeWeight := dtw
    routeTimeWeight := rtw
    baseValidTerms := bvt
    validTerms := bvt
    finishedRoutes := []
    currentRoute := []
    currentRouteTime := 0
    totalRouteTime := 0
    routeMat := initRouteMat
    directlyConnected := eyeBool
    transitTimes := initRouteMat
    hasPath := eyeBool
    routeNexts := fun _ _ => 0
    nTransfers := fun _ _ => 0 }

/-- Boolean matrix product over indices below `n` (the `bmm` over 0/1
float matrices in `nodes_are_connected`). -/
def boolMatMul (n : Nat) (A B : Nat → Nat → Bool) : Nat → Nat → Bool :=
  fun i j => (List.range n).any fun k => A i k && B k j

/-- Elementwise-minimum merge of `_update_on_routes`:
`torch.minimum(self.route_mat, new_route_mat)`. -/
def mergedMat (s : ScenState) (routes : List (List Nat)) : TMat :=
  fun i j =>
    min (s.routeMat i j)
      (routeEdgeMatrix routes s.driveTimes s.meanStopTime s.symmetricRoutes i j)

/-- Embedding of `RouteGenBatchState._update_on_routes` for one scenario: merge the new
routes' edge matrix into `route_mat` by elementwise minimum (`mergedMat`),
accumulate `directly_connected` from the finite entries, optionally widen
`valid_terms_mat` to demand-adjacent pairs and blank directly connected
pairs, symmetrize it when `symmetric_routes`, and recompute the next-hop,
transit-time, reachability and transfer matrices from the merged
`route_mat`. -/
def updateOnRoutes (s : ScenState) (routes : List (List Nat))
    (onlyDemandValid invalidDirCon : Bool) : ScenState :=
  let rm : TMat := mergedMat s routes
  let dc : Nat → Nat → Bool := fun i j => s.directlyConnected i j || decide (rm i j < ⊤)
  let vt1 :=
    if onlyDemandValid then
      let conn := boolMatMul s.n (boolMatMul s.n dc dc) dc
      let up : Nat → Nat → Bool := fun i j =>
        (List.range s.n).any fun k => decide (0 < s.demand i k) && conn j k
      let down : Nat → Nat → Bool := fun i j =>
        (List.range s.n).any fun k => conn k i && decide (0 < s.demand k j)
      fun i j => s.validTerms i j || up i j || down i j
    else s.validTerms
  let vt2 := if invalidDirCon then (fun i j => vt1 i j && !(dc i j)) else vt1
  let vt3 := if s.symmetricRoutes then (fun i j => vt2 i j && vt2 j i) else vt2
  { s with
    routeMat := rm
    directlyConnected := dc
    validTerms := vt3
    routeNexts := (floydWarshall s.n rm).1
    transitTimes := derivedTT s.n s.transferTime rm
    hasPath := derivedHasPath s.n rm
    nTransfers := derivedNTransfers s.n rm }

/-- Validity check and route concatenation of `shortest_path_action`
(lines 213-245): with the sentinel the current route is kept whole;
otherwise the reconstructed path `newPart` starts a new route when none
is in progress, is prepended (dropping the shared endpoint) when `v` is
the current route's first stop, is appended when `u` is its last stop,
and any other pair fails the `valid_action` assertion. -/
def spConcat (s : ScenState) (a : Option (Nat × Nat)) (newPart : List Nat) :
    Option (List Nat) :=
  match a with
  | none => some s.currentRoute
  | some (u, v) =>
    if s.currentRoute = [] then some newPart
    else if s.currentRoute.head? = some v then some (newPart ++ s.currentRoute.tail)
    else if s.currentRoute.getLast? = some u then some (s.currentRoute ++ newPart.tail)
    else none

/-- Post-concatenation part of `shortest_path_action` (lines 250-284):
clear the update for already-done scenarios, append the in-progress route
to `finished_routes` (and add its running time to the stored total) when
the sentinel arrives at an unfinished scenario with a non-empty route,
clear the in-progress route on done-or-sentinel, recompute the current
route's running time, and refresh the route-derived structures. -/
def spFinish (s : ScenState) (a : Option (Nat × Nat)) (updated : List Nat) :
    ScenState :=
  let done := s.isDone
  let updated1 := if done then [] else updated
  let doAppend := done = false ∧ a = none ∧ updated1 ≠ []
  let finished' := if doAppend then s.finishedRoutes ++ [updated1] else s.finishedRoutes
  let stored' :=
    if doAppend then s.totalRouteTime + s.currentRouteTime else s.totalRouteTime
  let current' := if done = true ∨ a = none then [] else updated1
  let s1 : ScenState :=
    { s with
      finishedRoutes := finished'
      totalRouteTime := stored'
      currentRoute := current'
      currentRouteTime :=
        routesTime s.driveTimes s.meanStopTime s.symmetricRoutes [current'] }
  updateOnRoutes s1 [current'] false false

/-- Embedding of `RouteGenBatchState.shortest_path_action` for one scenario.  `a` is
the scenario's row of `path_indices` (`none` is the sentinel row starting
with -1), `newPart` the reconstructed shortest-path stop sequence gathered
for the chosen pair.  `none` models the halting assertions: the
`valid_action` check and the capacity check that the combined route fits
the fixed `max_n_nodes` width with node indices below it. -/
def spAction (s : ScenState) (a : Option (Nat × Nat)) (newPart : List Nat) :
    Option ScenState :=
  match spConcat s a newPart with
  | none => none
  | some updated =>
    if updated.length ≤ s.n ∧ ∀ x ∈ updated, x < s.n then
      some (spFinish s a updated)
    else none

/-- Embedding of `RouteGenBatchState._clear_routes_helper` for one scenario: forget the
finished routes, restore `valid_terms_mat` to its base value, zero the
times, and reset every route-derived structure to its initial no-route
value. -/
def clearRoutes (s : ScenState) : ScenState :=
  { s with
    finishedRoutes := []
    validTerms := s.baseValidTerms
    totalRouteTime := 0
    directlyConnected := eyeBool
    routeMat := initRouteMat
    transitTimes := initRouteMat
    hasPath := eyeBool
    currentRoute := []
    currentRouteTime := 0
    routeNexts := fun _ _ => 0
    nTransfers := fun _ _ => 0 }

/-- Embedding of `RouteGenBatchState.add_new_routes` for one scenario: append every
supplied route with at least 2 stops to `finished_routes` (shorter ones
are logged and skipped), add the total running time of the whole supplied
set, then refresh via `_update_on_routes`. -/
def addNewRoutes (s : ScenState) (newRoutes : List (List Nat))
    (onlyDemandValid invalidDirCon : Bool) : ScenState :=
  let s1 : ScenState :=
    { s with
      finishedRoutes :=
        s.finishedRoutes ++ newRoutes.filter (fun r => decide (2 ≤ r.length))
      totalRouteTime :=
        s.totalRouteTime +
          routesTime s.driveTimes s.meanStopTime s.symmetricRoutes newRoutes }
  updateOnRoutes s1 newRoutes onlyDemandValid invalidDirCon

/-- Embedding of `RouteGenBatchState.replace_routes`: clear, then bulk-add. -/
def replaceRoutes (s : ScenState) (newRoutes : List (List Nat))
    (onlyDemandValid invalidDirCon : Bool) : ScenState :=
  addNewRoutes (clearRoutes s) newRoutes onlyDemandValid invalidDirCon

/-- Embedding of `RouteGenBatchState.reset_dones` for one scenario: clear exactly the
scenarios whose planning is complete. -/
def resetDones (s : ScenState) : ScenState :=
  if s.isDone then clearRoutes s else s

/-- Sum of a rational matrix over all index pairs below `n`. -/
def matSum (n : Nat) (f : Nat → Nat → ℚ) : ℚ :=
  ∑ i ∈ Finset.range n, ∑ j ∈ Finset.range n, f i j

/-- The `routes` property: finished routes plus the in-progress route when
it has at least 2 stops. -/
def stateRoutes (s : ScenState) : List (List Nat) :=
  s.finishedRoutes ++ if 1 < s.currentRoute.length then [s.currentRoute] else []

/-- Maximum drive time of the scenario (the `time_normalizer` /
"diameter": `drive_times.flatten(1,2).max(1)`), folded over all entries
below `n`. -/
def diameter (s : ScenState) : ℚ :=
  ((List.range (s.n * s.n)).map
    (fun t => s.driveTimes (t / s.n) (t % s.n))).foldl max 0

/-- The `n_demand_edges` property: count of positive-demand pairs, halved (rounded up)
when routes are symmetric. -/
def nDemandEdges (s : ScenState) : ℚ :=
  if s.symmetricRoutes then
    ((⌈matSum s.n (fun i j => if 0 < s.demand i j then (1 : ℚ) else 0) / 2⌉ : ℤ) : ℚ)
  else matSum s.n fun i j => if 0 < s.demand i j then 1 else 0

/-- Embedding of `get_n_disconnected_demand_edges`: count of positive-demand pairs with
no path, halved when routes are symmetric. -/
def nDisconnectedDemandEdges (s : ScenState) : ℚ :=
  if s.symmetricRoutes then
    matSum s.n (fun i j =>
      if ¬ s.hasPath i j = true ∧ 0 < s.demand i j then (1 : ℚ) else 0) / 2
  else
    matSum s.n fun i j =>
      if ¬ s.hasPath i j = true ∧ 0 < s.demand i j then 1 else 0

/-- Trip times used by the cost helper: `transit_times` with unreachable
pairs zeroed. -/
def tripTimesOf (s : ScenState) : Nat → Nat → ℚ :=
  fun i j => if s.hasPath i j then (s.transitTimes i j).untop' 0 else 0

/-- Transfer counts with unreachable pairs bumped to 3 so that they land
in the unserved bucket of `trips_at_transfers`. -/
def modTransfers (s : ScenState) : Nat → Nat → Nat :=
  fun i j => if s.hasPath i j then s.nTransfers i j else 3

/-- The four demand buckets of `_cost_helper`: demand served at 0, 1 and
2 transfers, and demand at more than 2 transfers or unreachable. -/
def tripsAtTransfersOf (s : ScenState) : ℚ × ℚ × ℚ × ℚ :=
  (matSum s.n (fun i j => s.demand i j * if modTransfers s i j = 0 then 1 else 0),
   matSum s.n (fun i j => s.demand i j * if modTransfers s i j = 1 then 1 else 0),
   matSum s.n (fun i j => s.demand i j * if modTransfers s i j = 2 then 1 else 0),
   matSum s.n (fun i j => s.demand i j * if 2 < modTransfers s i j then 1 else 0))

/-- Per-route length-bound violation count of `_cost_helper`: shortfall
below `min_route_len` plus excess above `max_route_len`, with zero-length
placeholder routes exempt. -/
def routeLenDelta (minLen : Nat) (maxLen : Option Nat) (r : List Nat) : Nat :=
  if r.length = 0 then 0
  else
    (minLen - r.length) +
      (match maxLen with
       | some m => r.length - m
       | none => 0)

/-- The value `n_routes_left_to_plan` minus the has-current-route indicator: the
number of required routes not even started (float-valued in the source,
so it can go negative). -/
def nUnstartedOf (s : ScenState) : ℚ :=
  (s.nRoutesToPlan : ℚ) - s.finishedRoutes.length -
    (if s.currentRoute = [] then 0 else 1)

/-- The `n_stops_oob` value of `_cost_helper`: summed length-bound violations plus a
flat `min_route_len` penalty per unstarted required route. -/
def nStopsOobOf (minLen : Nat) (maxLen : Option Nat) (s : ScenState) : ℚ :=
  (((stateRoutes s).map (routeLenDelta minLen maxLen)).sum : ℕ) +
    nUnstartedOf s * minLen

/-- The statistics record assembled by `CostModule._cost_helper`
(`CostHelperOutput` in the source; the optional ridership attribution and
final cost slots are omitted). -/
structure CostHelperOutput where
  totalDemandTime : ℚ
  totalRouteTime : ℚ
  tripsAtTransfers : ℚ × ℚ × ℚ × ℚ
  totalDemand : ℚ
  unservedDemand : ℚ
  totalTransfers : ℚ
  tripTimes : Nat → Nat → ℚ
  nDisconnectedDemandEdges : ℚ
  nStopsOob : ℚ
  batchRoutes : List (List Nat)

/-- Embedding of `CostModule._cost_helper` for one scenario.  `none` models the halting
loop-check assertion: every route must visit as many distinct stops as its
length. -/
def costHelper (minLen : Nat) (maxLen : Option Nat) (s : ScenState) :
    Option CostHelperOutput :=
  if (stateRoutes s).all (fun r => decide (r.eraseDups.length = r.length)) then
    some
      { totalDemandTime := matSum s.n fun i j => s.demand i j * tripTimesOf s i j
        totalRouteTime := s.fullRouteTime
        tripsAtTransfers := tripsAtTransfersOf s
        totalDemand := matSum s.n s.demand
        unservedDemand :=
          matSum s.n fun i j => s.demand i j * if s.hasPath i j then 0 else 1
        totalTransfers :=
          matSum s.n fun i j => s.demand i j * (s.nTransfers i j : ℚ)
        tripTimes := tripTimesOf s
        nDisconnectedDemandEdges := nDisconnectedDemandEdges s
        nStopsOob := nStopsOobOf minLen maxLen s
        batchRoutes := stateRoutes s }
  else none

/-- CostHelperOutput.mean_demand_time: demand-weighted travel time per
unit of total demand, guarded by an epsilon of 1e-6. -/
def meanDemandTime (cho : CostHelperOutput) : ℚ :=
  cho.totalDemandTime / (cho.totalDemand + 1 / 1000000)

/-- Unserved-demand penalty of `MyCostModule.forward`: every unserved trip
is charged twice the scenario diameter, averaged over the total demand. -/
def unservedPenaltyOf (s : ScenState) (cho : CostHelperOutput) : ℚ :=
  cho.unservedDemand * diameter s * 2 / cho.totalDemand

/-- Demand-cost component of `MyCostModule.forward`: mean demand time plus
the unserved-demand penalty, divided by the diameter unless `no_norm`. -/
def demandCostOf (s : ScenState) (cho : CostHelperOutput) (noNorm : Bool) : ℚ :=
  if noNorm then meanDemandTime cho + unservedPenaltyOf s cho
  else (meanDemandTime cho + unservedPenaltyOf s cho) / diameter s

/-- Route-cost component of `MyCostModule.forward`: total route time,
normalized by diameter times routes-to-plan (plus epsilon) unless
`no_norm`. -/
def routeCostOf (s : ScenState) (cho : CostHelperOutput) (noNorm : Bool) : ℚ :=
  if noNorm then cho.totalRouteTime
  else cho.totalRouteTime / (diameter s * (s.nRoutesToPlan : ℚ) + 1 / 1000000)

/-- Configuration of `MyCostModule` relevant to its cost formula. -/
structure MyCostConfig where
  minRouteLen : Nat
  maxRouteLen : Option Nat
  constraintViolationWeight : ℚ
  ignoreStopsOob : Bool

/-- Fraction of demand pairs left disconnected (`frac_uncovered`). -/
def fracUncoveredOf (s : ScenState) (cho : CostHelperOutput) : ℚ :=
  cho.nDisconnectedDemandEdges / nDemandEdges s

/-- Denominator of the out-of-bounds-stop fraction, with the source's
division-by-zero guard (`denom[denom == 0] = 1`). -/
def oobDenomOf (cfg : MyCostConfig) (s : ScenState) : ℚ :=
  if (s.nRoutesToPlan : ℚ) * cfg.minRouteLen = 0 then 1
  else (s.nRoutesToPlan : ℚ) * cfg.minRouteLen

/-- Fraction of route-length-bound violations (`frac_stops_oob`). -/
def fracStopsOobOf (cfg : MyCostConfig) (s : ScenState)
    (cho : CostHelperOutput) : ℚ :=
  cho.nStopsOob / oobDenomOf cfg s

/-- Constraint-violation component of `MyCostModule.forward`: fraction of
disconnected demand edges and (unless ignored) fraction of out-of-bounds
stops, each with a 0.1 step when positive. -/
def constViolCostOf (cfg : MyCostConfig) (s : ScenState)
    (cho : CostHelperOutput) : ℚ :=
  (fracUncoveredOf s cho + if 0 < fracUncoveredOf s cho then 1 / 10 else 0) +
    (if cfg.ignoreStopsOob then 0
     else fracStopsOobOf cfg s cho +
       if 0 < fracStopsOobOf cfg s cho then 1 / 10 else 0)

/-- The scalar cost computed by `MyCostModule.forward` (before its
finiteness and non-negativity assertions), with the demand- and
route-time weights read from the state's cost weights. -/
def myCostOf (cfg : MyCostConfig) (s : ScenState) (cho : CostHelperOutput)
    (noNorm : Bool) : ℚ :=
  demandCostOf s cho noNorm * s.demandTimeWeight +
    routeCostOf s cho noNorm * s.routeTimeWeight +
    constViolCostOf cfg s cho * cfg.constraintViolationWeight

/-- Divisions of `MyCostModule.forward` whose denominators carry no
epsilon guard: the unserved penalty divides by the scenario's total
demand, `frac_uncovered` divides by `n_demand_edges`, and the
normalization divides by the diameter.  When one of these denominators is
zero the float computation yields NaN or an infinity, so the cost is
non-finite; with every other quantity an exact rational, these are
exactly the non-finite cases of the computation. -/
def myCostDivByZero (s : ScenState) (cho : CostHelperOutput)
    (noNorm : Bool) : Prop :=
  cho.totalDemand = 0 ∨ nDemandEdges s = 0 ∨ (noNorm = false ∧ diameter s = 0)

instance (s : ScenState) (cho : CostHelperOutput) (noNorm : Bool) :
    Decidable (myCostDivByZero s cho noNorm) := by
  unfold myCostDivByZero
  infer_instance

/-- Embedding of `MyCostModule.forward` for one scenario: run the shared
helper, then compute the weighted cost; `none` models the halting
assertions — the loop check (inside the helper), the finiteness
assertion, which fails exactly when an unguarded division divides by
zero (`myCostDivByZero`, e.g. a scenario with zero total demand), and
the final assertion that the cost is non-negative. -/
def myCostForward (cfg : MyCostConfig) (s : ScenState) (noNorm : Bool) :
    Option ℚ :=
  (costHelper cfg.minRouteLen cfg.maxRouteLen s).bind fun cho =>
    if myCostDivByZero s cho noNorm then none
    else if 0 ≤ myCostOf cfg s cho noNorm then some (myCostOf cfg s cho noNorm)
    else none

/-- The weight `w_2` of `NikolicCostModule.forward`: mean travel time of
satisfied trips — or, when the satisfied demand is (close to) zero, the
mean of all trip times — plus the fixed unsatisfied-penalty constant. -/
def nikolicW2 (extra : ℚ) (s : ScenState) (cho : CostHelperOutput) : ℚ :=
  (if |cho.totalDemand - cho.unservedDemand| ≤ 1 / 100000000 then
    matSum s.n cho.tripTimes / ((s.n : ℚ) * s.n)
  else cho.totalDemandTime / (cho.totalDemand - cho.unservedDemand)) + extra

/-- The scalar cost computed by `NikolicCostModule.forward` (before its
assertions): total demand time plus `w_2` times the unserved demand. -/
def nikolicCostOf (extra : ℚ) (s : ScenState) (cho : CostHelperOutput) : ℚ :=
  cho.totalDemandTime + nikolicW2 extra s cho * cho.unservedDemand

/-- Embedding of `NikolicCostModule.forward` for one scenario (its helper is always
called with `min_route_len = 2` and no maximum); `none` models the
loop-check assertion and the assertion that the cost is only zero when the
total demand is zero. -/
def nikolicForward (extra : ℚ) (s : ScenState) : Option ℚ :=
  (costHelper 2 none s).bind fun cho =>
    if nikolicCostOf extra s cho = 0 ∧ 0 < cho.totalDemand then none
    else some (nikolicCostOf extra s cho)

/-- Embedding of `check_for_duplicate_routes`: for each scenario, compare every route
row against every route row (including itself, exactly as the broadcast
`routes_tensor == routes_tensor.transpose(1, 2)` does) and report whether
any comparison matches stop-for-stop.  Routes are rows of the padded
tensor, so they are compared with their padding. -/
def checkForDuplicateRoutes (batch : List (List (List Int))) : List Bool :=
  batch.map fun routes =>
    routes.any fun r1 => routes.any fun r2 => decide (r1 = r2)

/-- States reachable through construction and the defined mutations. -/
inductive Reachable : ScenState → Prop
  | init (n : Nat) (drive demand : Nat → Nat → ℚ) (mst tts : ℚ) (sym : Bool)
      (toPlan minLen maxLen : Nat) (bvt : Nat → Nat → Bool) (dtw rtw : ℚ) :
      Reachable (initState n drive demand mst tts sym toPlan minLen maxLen bvt dtw rtw)
  | step (s s' : ScenState) (a : Option (Nat × Nat)) (np : List Nat) :
      Reachable s → spAction s a np = some s' → Reachable s'
  | add (s : ScenState) (rs : List (List Nat)) (f1 f2 : Bool) :
      Reachable s → Reachable (addNewRoutes s rs f1 f2)
  | replace (s : ScenState) (rs : List (List Nat)) (f1 f2 : Bool) :
      Reachable s → Reachable (replaceRoutes s rs f1 f2)
  | clear (s : ScenState) : Reachable s → Reachable (clearRoutes s)
  | reset (s : ScenState) : Reachable s → Reachable (resetDones s)

/-- Consistency of the derived per-scenario structures with `route_mat`
and the current route; it holds in every reachable state. -/
structure StateInv (s : ScenState) : Prop where
  dcEq : ∀ i j, s.directlyConnected i j = decide (s.routeMat i j < ⊤)
  ttEq : s.transitTimes = derivedTT s.n s.transferTime s.routeMat
  hpEq : s.hasPath = derivedHasPath s.n s.routeMat
  ctEq : s.currentRouteTime =
    routesTime s.driveTimes s.meanStopTime s.symmetricRoutes [s.currentRoute]

/-- A 2-node drive-time matrix: 100 seconds between the two nodes. -/
def exDrive : Nat → Nat → ℚ := fun i j => if i = j then 0 else 100

/-- A 2-node demand matrix: 10 trips each way, none to self. -/
def exDemand : Nat → Nat → ℚ := fun i j => if i = j then 0 else 10

/-- The default terminal-validity mask: all pairs except self-pairs. -/
def exBase : Nat → Nat → Bool := fun i j => !decide (i = j)

/-- A freshly constructed 2-node scenario: one route to plan, route length
bounds [2,2], no dwell time, 300 s transfer penalty, asymmetric routes. -/
def exState : ScenState :=
  initState 2 exDrive exDemand 0 300 false 1 2 2 exBase (1/2) (1/2)

/-- A freshly constructed 4-node scenario used to exercise the
shortest-path action (2 routes to plan). -/
def exState4 : ScenState :=
  initState 4 exDrive exDemand 0 300 false 2 2 4 exBase (1/2) (1/2)

/-- A freshly constructed 6-node scenario with one route to plan. -/
def exState6 : ScenState :=
  initState 6 exDrive exDemand 0 300 false 1 2 6 exBase (1/2) (1/2)

/-- A complete (0 routes to plan) scenario constructed with symmetric
routes and an asymmetric supplied terminal-validity mask. -/
def exDoneAsym : ScenState :=
  initState 2 exDrive exDemand 0 300 true 0 2 2
    (fun i j => decide (i = 0) && decide (j = 1)) (1/2) (1/2)

/-- The 2-node scenario after bulk-adding one more route than planned:
routes [0,1] and [1,0] with only one route to plan. -/
def exOverfull : ScenState :=
  addNewRoutes exState [[0, 1], [1, 0]] false false

/-- The cost configuration of `MyCostModule` with its default weights:
route-length bounds [2, none], constraint weight 5. -/
def exCostConfig : MyCostConfig :=
  { minRouteLen := 2, maxRouteLen := none
    constraintViolationWeight := 5, ignoreStopsOob := false }

/-- A complete (0 routes to plan) freshly constructed scenario with
asymmetric routes, used as a completed-scenario instance. -/
def exDoneState : ScenState :=
  initState 2 exDrive exDemand 0 300 false 0 2 2 exBase (1/2) (1/2)

/-- A placeholder cost-helper record (used only to project the result of
a successful helper run). -/
def dummyCho : CostHelperOutput :=
  { totalDemandTime := 0, totalRouteTime := 0, tripsAtTransfers := (0, 0, 0, 0)
    totalDemand := 0, unservedDemand := 0, totalTransfers := 0
    tripTimes := fun _ _ => 0, nDisconnectedDemandEdges := 0, nStopsOob := 0
    batchRoutes := [] }

/-! Projection facts for the state operations, all definitional. -/

theorem updateOnRoutes_routeMat (s : ScenState) (rs : List (List Nat))
    (f1 f2 : Bool) : (updateOnRoutes s rs f1 f2).routeMat = mergedMat s rs := rfl

theorem updateOnRoutes_dc (s : ScenState) (rs : List (List Nat)) (f1 f2 : Bool) :
    (updateOnRoutes s rs f1 f2).directlyConnected =
      fun i j => s.directlyConnected i j || decide (mergedMat s rs i j < ⊤) := rfl

theorem updateOnRoutes_tt (s : ScenState) (rs : List (List Nat)) (f1 f2 : Bool) :
    (updateOnRoutes s rs f1 f2).transitTimes =
      derivedTT s.n s.transferTime (mergedMat s rs) := rfl

theorem updateOnRoutes_hasPath (s : ScenState) (rs : List (List Nat)) (f1 f2 : Bool) :
    (updateOnRoutes s rs f1 f2).hasPath = derivedHasPath s.n (mergedMat s rs) := rfl

theorem updateOnRoutes_validTerms (s : ScenState) (rs : List (List Nat)) :
    (updateOnRoutes s rs false false).validTerms =
      if s.symmetricRoutes then (fun i j => s.validTerms i j && s.validTerms j i)
      else s.validTerms := rfl

theorem spFinish_finished (s : ScenState) (a : Option (Nat × Nat)) (u : List Nat) :
    (spFinish s a u).finishedRoutes =
      if s.isDone = false ∧ a = none ∧ (if s.isDone then [] else u) ≠ [] then
        s.finishedRoutes ++ [if s.isDone then [] else u]
      else s.finishedRoutes := rfl

theorem spFinish_total (s : ScenState) (a : Option (Nat × Nat)) (u : List Nat) :
    (spFinish s a u).totalRouteTime =
      if s.isDone = false ∧ a = none ∧ (if s.isDone then [] else u) ≠ [] then
        s.totalRouteTime + s.currentRouteTime
      else s.totalRouteTime := rfl

theorem spFinish_current (s : ScenState) (a : Option (Nat × Nat)) (u : List Nat) :
    (spFinish s a u).currentRoute =
      if s.isDone = true ∨ a = none then []
      else if s.isDone then [] else u := rfl

theorem spFinish_currentTime (s : ScenState) (a : Option (Nat × Nat)) (u : List Nat) :
    (spFinish s a u).currentRouteTime =
      routesTime s.driveTimes s.meanStopTime s.symmetricRoutes
        [if s.isDone = true ∨ a = none then []
         else if s.isDone then [] else u] := rfl

theorem spFinish_routeMat (s : ScenState) (a : Option (Nat × Nat)) (u : List Nat) :
    (spFinish s a u).routeMat =
      mergedMat s
        [if s.isDone = true ∨ a = none then []
         else if s.isDone then [] else u] := rfl

theorem spFinish_tt (s : ScenState) (a : Option (Nat × Nat)) (u : List Nat) :
    (spFinish s a u).transitTimes =
      derivedTT s.n s.transferTime
        (mergedMat s
          [if s.isDone = true ∨ a = none then []
           else if s.isDone then [] else u]) := rfl

theorem spFinish_hasPath (s : ScenState) (a : Option (Nat × Nat)) (u : List Nat) :
    (spFinish s a u).hasPath =
      derivedHasPath s.n
        (mergedMat s
          [if s.isDone = true ∨ a = none then []
           else if s.isDone then [] else u]) := rfl

theorem spFinish_dc (s : ScenState) (a : Option (Nat × Nat)) (u : List Nat) :
    (spFinish s a u).directlyConnected =
      fun i j => s.directlyConnected i j ||
        decide
          (mergedMat s
            [if s.isDone = true ∨ a = none then []
             else if s.isDone then [] else u] i j < ⊤) := rfl

theorem spFinish_validTerms (s : ScenState) (a : Option (Nat × Nat)) (u : List Nat) :
    (spFinish s a u).validTerms =
      if s.symmetricRoutes then (fun i j => s.validTerms i j && s.validTerms j i)
      else s.validTerms := rfl

theorem spAction_sentinel_eq (s : ScenState) (np : List Nat) :
    spAction s none np =
      if s.currentRoute.length ≤ s.n ∧ ∀ x ∈ s.currentRoute, x < s.n then
        some (spFinish s none s.currentRoute)
      else none := rfl

/-! Basic facts about the modelled graph-library primitives. -/

theorem routeEdgeMatrix_nilRoute (d : Nat → Nat → ℚ) (st : ℚ) (sym : Bool)
    (i j : Nat) : routeEdgeMatrix [[]] d st sym i j = ⊤ := by
  cases sym <;> rfl

theorem routesTime_nilRoute (d : Nat → Nat → ℚ) (st : ℚ) (sym : Bool) :
    routesTime d st sym [[]] = 0 := by
  cases sym <;> simp [routesTime, legsTime]

theorem mergedMat_le (s : ScenState) (rs : List (List Nat)) (i j : Nat) :
    mergedMat s rs i j ≤ s.routeMat i j := min_le_left _ _

theorem mergedMat_nilRoute (s : ScenState) :
    mergedMat s [[]] = s.routeMat := by
  funext i j
  show min (s.routeMat i j)
      (routeEdgeMatrix [[]] s.driveTimes s.meanStopTime s.symmetricRoutes i j) =
    s.routeMat i j
  rw [routeEdgeMatrix_nilRoute]
  exact min_eq_left le_top

theorem fw_fold_dist_le (l : List Nat) :
    ∀ (p : (Nat → Nat → Nat) × TMat) (i j : Nat),
      (l.foldl fwStep p).2 i j ≤ p.2 i j := by
  induction l with
  | nil => intro p i j; exact le_refl _
  | cons k l ih =>
    intro p i j
    exact le_trans (ih (fwStep p k) i j) (min_le_left _ _)

theorem rawTT_le (n : Nat) (m : TMat) (i j : Nat) : rawTT n m i j ≤ m i j :=
  fw_fold_dist_le (List.range n) _ i j

theorem initRouteMat_nonneg (i j : Nat) : (0 : WithTop ℚ) ≤ initRouteMat i j := by
  unfold initRouteMat
  split
  · exact le_refl _
  · exact le_top

theorem fwStep_init (p : (Nat → Nat → Nat) × TMat) (k : Nat)
    (hp : ∀ i j, p.2 i j = initRouteMat i j) :
    ∀ i j, (fwStep p k).2 i j = initRouteMat i j := by
  intro i j
  show min (p.2 i j) (p.2 i k + p.2 k j) = initRouteMat i j
  rw [hp i j, hp i k, hp k j]
  by_cases hij : i = j
  · subst hij
    have h0 : initRouteMat i i = 0 := if_pos rfl
    rw [h0]
    exact min_eq_left (add_nonneg (initRouteMat_nonneg i k) (initRouteMat_nonneg k i))
  · have ht : initRouteMat i j = ⊤ := if_neg hij
    rw [ht]
    have hsum : initRouteMat i k + initRouteMat k j = ⊤ := by
      by_cases hik : i = k
      · subst hik
        have hkj : initRouteMat i j = ⊤ := if_neg hij
        rw [hkj]
        exact add_top _
      · rw [show initRouteMat i k = ⊤ from if_neg hik]
        exact top_add _
    rw [hsum]
    exact min_self ⊤

theorem fw_fold_init (l : List Nat) :
    ∀ (p : (Nat → Nat → Nat) × TMat),
      (∀ i j, p.2 i j = initRouteMat i j) →
      ∀ i j, (l.foldl fwStep p).2 i j = initRouteMat i j := by
  induction l with
  | nil => intro p hp i j; exact hp i j
  | cons k l ih => intro p hp i j; exact ih (fwStep p k) (fwStep_init p k hp) i j

theorem rawTT_init (n i j : Nat) : rawTT n initRouteMat i j = initRouteMat i j :=
  fw_fold_init (List.range n) _ (fun _ _ => rfl) i j

theorem pathLens_diag (n : Nat) (nx : Nat → Nat → Nat) (i : Nat) :
    pathLens n nx i i = 1 := by
  simp [pathLens, pathLenFuel]

theorem derivedNTransfers_init (n i j : Nat) :
    derivedNTransfers n initRouteMat i j = 0 := by
  unfold derivedNTransfers
  by_cases hij : i = j
  · subst hij
    rw [if_pos]
    · rw [pathLens_diag]
    · rw [rawTT_init]
      simp [initRouteMat]
  · rw [if_neg]
    rw [rawTT_init]
    simp [initRouteMat, hij]

theorem derivedTT_init (n : Nat) (tts : ℚ) :
    derivedTT n tts initRouteMat = initRouteMat := by
  funext i j
  unfold derivedTT
  rw [rawTT_init n i j, derivedNTransfers_init n i j]
  simp

theorem derivedHasPath_init (n : Nat) :
    derivedHasPath n initRouteMat = eyeBool := by
  funext i j
  unfold derivedHasPath eyeBool
  rw [rawTT_init n i j]
  by_cases hij : i = j <;> simp [initRouteMat, hij]

/-! The derived-state invariant holds initially and is preserved. -/

theorem statInv_init (n : Nat) (drive demand : Nat → Nat → ℚ) (mst tts : ℚ)
    (sym : Bool) (toPlan minLen maxLen : Nat) (bvt : Nat → Nat → Bool)
    (dtw rtw : ℚ) :
    StateInv (initState n drive demand mst tts sym toPlan minLen maxLen bvt dtw rtw) := by
  constructor
  · intro i j
    show eyeBool i j = decide (initRouteMat i j < ⊤)
    by_cases hij : i = j <;> simp [eyeBool, initRouteMat, hij]
  · exact (derivedTT_init n tts).symm
  · exact (derivedHasPath_init n).symm
  · exact (routesTime_nilRoute drive mst sym).symm

theorem statInv_clear (s : ScenState) : StateInv (clearRoutes s) := by
  constructor
  · intro i j
    show eyeBool i j = decide (initRouteMat i j < ⊤)
    by_cases hij : i = j <;> simp [eyeBool, initRouteMat, hij]
  · exact (derivedTT_init s.n s.transferTime).symm
  · exact (derivedHasPath_init s.n).symm
  · exact (routesTime_nilRoute s.driveTimes s.meanStopTime s.symmetricRoutes).symm

theorem statInv_update (s : ScenState) (rs : List (List Nat)) (f1 f2 : Bool)
    (h : StateInv s) : StateInv (updateOnRoutes s rs f1 f2) := by
  constructor
  · intro i j
    show (s.directlyConnected i j || decide (mergedMat s rs i j < ⊤)) =
      decide (mergedMat s rs i j < ⊤)
    rw [h.dcEq i j]
    by_cases hm : s.routeMat i j < ⊤
    · have h2 : mergedMat s rs i j < ⊤ := lt_of_le_of_lt (mergedMat_le s rs i j) hm
      simp [hm, h2]
    · simp [hm]
  · rfl
  · rfl
  · exact h.ctEq

theorem statInv_spFinish (s : ScenState) (a : Option (Nat × Nat)) (u : List Nat)
    (h : StateInv s) : StateInv (spFinish s a u) :=
  statInv_update _ _ false false ⟨h.dcEq, h.ttEq, h.hpEq, rfl⟩

theorem statInv_spAction (s s' : ScenState) (a : Option (Nat × Nat))
    (np : List Nat) (h : StateInv s) (hs : spAction s a np = some s') :
    StateInv s' := by
  unfold spAction at hs
  split at hs
  · exact absurd hs (by simp)
  · split at hs
    · obtain rfl : _ = s' := Option.some.inj hs
      exact statInv_spFinish s a _ h
    · exact absurd hs (by simp)

theorem statInv_add (s : ScenState) (rs : List (List Nat)) (f1 f2 : Bool)
    (h : StateInv s) : StateInv (addNewRoutes s rs f1 f2) :=
  statInv_update _ _ f1 f2 ⟨h.dcEq, h.ttEq, h.hpEq, h.ctEq⟩

theorem statInv_replace (s : ScenState) (rs : List (List Nat)) (f1 f2 : Bool) :
    StateInv (replaceRoutes s rs f1 f2) :=
  statInv_add _ rs f1 f2 (statInv_clear s)

theorem statInv_reset (s : ScenState) (h : StateInv s) : StateInv (resetDones s) := by
  unfold resetDones
  split
  · exact statInv_clear s
  · exact h

theorem reachable_inv (s : ScenState) (h : Reachable s) : StateInv s := by
  induction h with
  | init n drive demand mst tts sym toPlan minLen maxLen bvt dtw rtw =>
    exact statInv_init n drive demand mst tts sym toPlan minLen maxLen bvt dtw rtw
  | step s s' a np _ hs ih => exact statInv_spAction s s' a np ih hs
  | add s rs f1 f2 _ ih => exact statInv_add s rs f1 f2 ih
  | replace s rs f1 f2 _ _ => exact statInv_replace s rs f1 f2
  | clear s _ _ => exact statInv_clear s
  | reset s _ ih => exact statInv_reset s ih

/-- C3: after any route-adding operation — `_update_on_routes`,
`add_new_routes`, or a successful `shortest_path_action` — every entry of
`route_mat` is at most its value before the operation, for every scenario
state and every node pair. -/
theorem routeMat_monotone_nonincreasing :
    (∀ (s : ScenState) (rs : List (List Nat)) (f1 f2 : Bool) (i j : Nat),
      (updateOnRoutes s rs f1 f2).routeMat i j ≤ s.routeMat i j) ∧
    (∀ (s : ScenState) (rs : List (List Nat)) (f1 f2 : Bool) (i j : Nat),
      (addNewRoutes s rs f1 f2).routeMat i j ≤ s.routeMat i j) ∧
    (∀ (s s' : ScenState) (a : Option (Nat × Nat)) (np : List Nat),
      spAction s a np = some s' → ∀ i j, s'.routeMat i j ≤ s.routeMat i j) := by
  refine ⟨?_, ?_, ?_⟩
  · intro s rs f1 f2 i j
    exact mergedMat_le s rs i j
  · intro s rs f1 f2 i j
    exact min_le_left _ _
  · intro s s' a np hs i j
    unfold spAction at hs
    split at hs
    · exact absurd hs (by simp)
    · split at hs
      · obtain rfl : _ = s' := Option.some.inj hs
        exact min_le_left _ _
      · exact absurd hs (by simp)

/-- C3 witness: the monotonicity theorem applied at a concrete state, a
concrete bulk addition, and a concrete successful sentinel action. -/
theorem routeMat_monotone_nonincreasing_witness :
    (updateOnRoutes exState [[0, 1]] false false).routeMat 0 1 ≤ exState.routeMat 0 1 ∧
    (addNewRoutes exState [[0, 1]] false false).routeMat 0 1 ≤ exState.routeMat 0 1 ∧
    ((spAction exState none []).getD exState).routeMat 0 1 ≤ exState.routeMat 0 1 := by
  refine ⟨routeMat_monotone_nonincreasing.1 exState [[0, 1]] false false 0 1,
    routeMat_monotone_nonincreasing.2.1 exState [[0, 1]] false false 0 1,
    routeMat_monotone_nonincreasing.2.2 exState _ none [] rfl 0 1⟩

/-- C4: in every reachable state, `has_path` is true exactly where
`transit_times` is finite, and every directly connected pair has a
path. -/
theorem reachability_consistency (s : ScenState) (h : Reachable s) :
    (∀ i j, s.hasPath i j = true ↔ s.transitTimes i j < ⊤) ∧
    (∀ i j, s.directlyConnected i j = true → s.hasPath i j = true) := by
  have inv := reachable_inv s h
  have hiff : ∀ (x : WithTop ℚ) (c : ℚ), x + (c : WithTop ℚ) < ⊤ ↔ x < ⊤ := by
    intro x c
    induction x using WithTop.recTopCoe with
    | top => simp [top_add]
    | coe q => simp [← WithTop.coe_add, WithTop.coe_lt_top]
  constructor
  · intro i j
    rw [inv.hpEq, inv.ttEq]
    unfold derivedHasPath derivedTT
    rw [decide_eq_true_iff]
    exact (hiff (rawTT s.n s.routeMat i j) _).symm
  · intro i j hdc
    rw [inv.dcEq i j, decide_eq_true_iff] at hdc
    rw [inv.hpEq]
    unfold derivedHasPath
    rw [decide_eq_true_iff]
    exact lt_of_le_of_lt (rawTT_le s.n s.routeMat i j) hdc

/-- C4 witness: reachability consistency at a freshly constructed
scenario. -/
theorem reachability_consistency_witness :
    (∀ i j, exState.hasPath i j = true ↔ exState.transitTimes i j < ⊤) ∧
    (∀ i j, exState.directlyConnected i j = true → exState.hasPath i j = true) :=
  reachability_consistency exState
    (Reachable.init 2 exDrive exDemand 0 300 false 1 2 2 exBase (1/2) (1/2))

/-- C6: `clear_routes` resets, for every scenario, `route_mat` and the
route-derived structures to their freshly-constructed initial values,
restores `valid_terms_mat` to the supplied base mask, and zeroes the
total route time. -/
theorem clear_routes_resets (s : ScenState) :
    (clearRoutes s).routeMat = initRouteMat ∧
    (clearRoutes s).fullRouteTime = 0 ∧
    (clearRoutes s).validTerms = s.baseValidTerms ∧
    (clearRoutes s).directlyConnected = eyeBool ∧
    (clearRoutes s).transitTimes = initRouteMat ∧
    (clearRoutes s).hasPath = eyeBool ∧
    (clearRoutes s).currentRoute = [] ∧
    (clearRoutes s).routeNexts = (fun _ _ => 0) ∧
    (clearRoutes s).nTransfers = (fun _ _ => 0) ∧
    (clearRoutes s).finishedRoutes = [] := by
  refine ⟨rfl, ?_, rfl, rfl, rfl, rfl, rfl, rfl, rfl, rfl⟩
  show (0 : ℚ) + 0 = 0
  norm_num

/-- C9: the duplicate-route check compares every route row against every
route row of the same scenario, including against itself, so it reports
true for a scenario with the distinct routes [0,1,2] and [2,1,0] just as
for a scenario with two identical routes [0,1,2]. -/
theorem duplicate_check_reports_reverse_pair :
    checkForDuplicateRoutes [[[0, 1, 2], [2, 1, 0]], [[0, 1, 2], [0, 1, 2]]] =
      [true, true] := rfl

/-- C10: for every scenario, the four demand buckets computed by the
shared cost helper — demand at 0, 1 and 2 transfers, and demand at more
than 2 transfers or unreachable — sum to the scenario's total demand. -/
theorem trips_at_transfers_partition (minLen : Nat) (maxLen : Option Nat)
    (s : ScenState) (cho : CostHelperOutput)
    (hcho : costHelper minLen maxLen s = some cho) :
    cho.tripsAtTransfers.1 + cho.tripsAtTransfers.2.1 +
      cho.tripsAtTransfers.2.2.1 + cho.tripsAtTransfers.2.2.2 =
      cho.totalDemand := by
  unfold costHelper at hcho
  split at hcho
  · obtain rfl : _ = cho := Option.some.inj hcho
    show (tripsAtTransfersOf s).1 + (tripsAtTransfersOf s).2.1 +
      (tripsAtTransfersOf s).2.2.1 + (tripsAtTransfersOf s).2.2.2 =
      matSum s.n s.demand
    unfold tripsAtTransfersOf matSum
    rw [← Finset.sum_add_distrib, ← Finset.sum_add_distrib,
      ← Finset.sum_add_distrib]
    refine Finset.sum_congr rfl fun i _ => ?_
    rw [← Finset.sum_add_distrib, ← Finset.sum_add_distrib,
      ← Finset.sum_add_distrib]
    refine Finset.sum_congr rfl fun j _ => ?_
    rcases hm : modTransfers s i j with _ | _ | _ | k
    · simp [hm]
    · simp [hm]
    · simp [hm]
    · have h2 : 2 < k + 3 := by omega
      simp [hm, h2]
  · exact absurd hcho (by simp)

/-- C7: in `MyCostModule.forward`, the demand cost is the mean travel
time per served trip (`mean_demand_time`) plus the unserved-demand
penalty charging each unserved trip twice the scenario diameter, the sum
divided by the diameter when normalization is enabled; the total cost
weights this component by the demand-time weight. -/
theorem my_cost_demand_cost_formula (s : ScenState) (cho : CostHelperOutput) :
    demandCostOf s cho false =
      (cho.totalDemandTime / (cho.totalDemand + 1 / 1000000) +
        2 * diameter s * cho.unservedDemand / cho.totalDemand) / diameter s ∧
    demandCostOf s cho true =
      cho.totalDemandTime / (cho.totalDemand + 1 / 1000000) +
        2 * diameter s * cho.unservedDemand / cho.totalDemand ∧
    ∀ (cfg : MyCostConfig) (noNorm : Bool),
      myCostOf cfg s cho noNorm =
        demandCostOf s cho noNorm * s.demandTimeWeight +
          routeCostOf s cho noNorm * s.routeTimeWeight +
          constViolCostOf cfg s cho * cfg.constraintViolationWeight := by
  refine ⟨?_, ?_, fun cfg noNorm => rfl⟩
  · show (meanDemandTime cho + unservedPenaltyOf s cho) / diameter s = _
    unfold meanDemandTime unservedPenaltyOf
    ring
  · show meanDemandTime cho + unservedPenaltyOf s cho = _
    unfold meanDemandTime unservedPenaltyOf
    ring

/-- C1 counterexample: starting from a fresh 6-node scenario, the action
(5,5) starts an in-progress route with the single stop 5; the sentinel
then appends this 1-stop route to `finished_routes` (the code only
discards empty routes, `len(route) > 0`), contradicting the claim that a
route with fewer than 2 stops is discarded. -/
theorem sentinel_appends_one_stop_route :
    ((spAction exState6 (some (5, 5)) [5]).bind fun s1 =>
        spAction s1 none []).map (fun s2 => s2.finishedRoutes) =
      some [[5]] := rfl

/-- C1 (amended): when the sentinel is applied to a scenario whose
planning is not yet complete, the in-progress route is appended to
`finished_routes` exactly when it has at least 1 stop (only an empty
in-progress route is discarded as a no-op), its running time is added to
the stored total exactly when it is appended, and the in-progress route
is cleared to empty. -/
theorem sentinel_closes_current_route (s : ScenState) (np : List Nat)
    (hnd : s.finishedRoutes.length < s.nRoutesToPlan)
    (hlen : s.currentRoute.length ≤ s.n)
    (hnodes : ∀ x ∈ s.currentRoute, x < s.n) :
    ∃ s', spAction s none np = some s' ∧
      s'.finishedRoutes =
        s.finishedRoutes ++
          (if s.currentRoute = [] then [] else [s.currentRoute]) ∧
      s'.totalRouteTime =
        s.totalRouteTime +
          (if s.currentRoute = [] then 0 else s.currentRouteTime) ∧
      s'.currentRoute = [] := by
  have hdone : s.isDone = false := by
    simp [ScenState.isDone, Nat.ne_of_lt hnd]
  refine ⟨spFinish s none s.currentRoute, ?_, ?_, ?_, ?_⟩
  · rw [spAction_sentinel_eq, if_pos ⟨hlen, hnodes⟩]
  · rw [spFinish_finished]
    by_cases hc : s.currentRoute = [] <;> simp [hdone, hc]
  · rw [spFinish_total]
    by_cases hc : s.currentRoute = [] <;> simp [hdone, hc]
  · rw [spFinish_current, if_pos (Or.inr rfl)]

/-- C1 witness: closing an in-progress 2-stop route on an unfinished
2-node scenario. -/
theorem sentinel_closes_current_route_witness :
    ∃ s', spAction ((spAction exState (some (0, 1)) [0, 1]).getD exState) none [] =
        some s' ∧
      s'.finishedRoutes =
        ((spAction exState (some (0, 1)) [0, 1]).getD exState).finishedRoutes ++
          (if ((spAction exState (some (0, 1)) [0, 1]).getD exState).currentRoute = []
            then []
            else [((spAction exState (some (0, 1)) [0, 1]).getD exState).currentRoute]) ∧
      s'.totalRouteTime =
        ((spAction exState (some (0, 1)) [0, 1]).getD exState).totalRouteTime +
          (if ((spAction exState (some (0, 1)) [0, 1]).getD exState).currentRoute = []
            then 0
            else ((spAction exState (some (0, 1)) [0, 1]).getD exState).currentRouteTime) ∧
      s'.currentRoute = [] :=
  sentinel_closes_current_route _ [] (by decide)
    (by decide) (by decide)

/-- C2 counterexample: a freshly constructed, already-complete scenario
(`n_routes_to_plan = 0`) with `symmetric_routes` set and an asymmetric
supplied terminal-validity mask.  Applying the sentinel is not a no-op:
the refresh intersects `valid_terms_mat` with its transpose, flipping the
entry (0,1) from true to false. -/
theorem done_sentinel_changes_valid_terms :
    exDoneAsym.isDone = true ∧ exDoneAsym.currentRoute = [] ∧
    exDoneAsym.validTerms 0 1 = true ∧
    (spAction exDoneAsym none []).map (fun s1 => s1.validTerms 0 1) =
      some false := ⟨rfl, rfl, rfl, rfl⟩

/-- C2 (amended): applying the sentinel to an already-complete scenario
(whose in-progress route is empty) leaves `finished_routes`, the stored
and in-progress route times, the current route, `route_mat`,
`transit_times`, `directly_connected`, `has_path` and `valid_terms_mat`
unchanged, provided `valid_terms_mat` is symmetric whenever
`symmetric_routes` is set (which holds after any prior mutation, but can
fail for a freshly constructed complete scenario with an asymmetric
supplied mask, which the action then symmetrizes). -/
theorem done_sentinel_noop (s : ScenState)
    (_hdone : s.nRoutesToPlan ≤ s.finishedRoutes.length)
    (hcur : s.currentRoute = []) (hinv : StateInv s)
    (hsym : s.symmetricRoutes = true → ∀ i j, s.validTerms i j = s.validTerms j i) :
    ∃ s', spAction s none [] = some s' ∧
      s'.finishedRoutes = s.finishedRoutes ∧
      s'.totalRouteTime = s.totalRouteTime ∧
      s'.currentRouteTime = s.currentRouteTime ∧
      s'.currentRoute = s.currentRoute ∧
      (∀ i j, s'.routeMat i j = s.routeMat i j) ∧
      (∀ i j, s'.transitTimes i j = s.transitTimes i j) ∧
      (∀ i j, s'.directlyConnected i j = s.directlyConnected i j) ∧
      (∀ i j, s'.hasPath i j = s.hasPath i j) ∧
      (∀ i j, s'.validTerms i j = s.validTerms i j) := by
  have hc : (if s.isDone = true ∨ (none : Option (Nat × Nat)) = none then []
      else if s.isDone then ([] : List Nat) else s.currentRoute) = [] :=
    if_pos (Or.inr rfl)
  refine ⟨spFinish s none s.currentRoute, ?_, ?_, ?_, ?_, ?_, ?_, ?_, ?_, ?_, ?_⟩
  · rw [spAction_sentinel_eq, if_pos]
    constructor
    · rw [hcur]; exact Nat.zero_le _
    · rw [hcur]; intro x hx; cases hx
  · rw [spFinish_finished]
    rcases hd : s.isDone with _ | _ <;> simp [hd, hcur]
  · rw [spFinish_total]
    rcases hd : s.isDone with _ | _ <;> simp [hd, hcur]
  · rw [spFinish_currentTime, hc, hinv.ctEq, hcur]
  · rw [spFinish_current, hc, hcur]
  · intro i j
    rw [spFinish_routeMat, hc, mergedMat_nilRoute]
  · intro i j
    rw [spFinish_tt, hc, mergedMat_nilRoute, ← hinv.ttEq]
  · intro i j
    show (s.directlyConnected i j ||
        decide (mergedMat s
          [if s.isDone = true ∨ (none : Option (Nat × Nat)) = none then []
           else if s.isDone then [] else s.currentRoute] i j < ⊤)) =
      s.directlyConnected i j
    rw [hc, mergedMat_nilRoute, hinv.dcEq i j, Bool.or_self]
  · intro i j
    rw [spFinish_hasPath, hc, mergedMat_nilRoute, ← hinv.hpEq]
  · intro i j
    rcases hs : s.symmetricRoutes with _ | _
    · rw [spFinish_validTerms, hs]
      rfl
    · rw [spFinish_validTerms, hs]
      simp [← hsym hs i j]

/-- C2 witness: the no-op at a freshly constructed complete scenario with
asymmetric routing (so the symmetry proviso is vacuous). -/
theorem done_sentinel_noop_witness :
    ∃ s', spAction exDoneState none [] = some s' ∧
      s'.finishedRoutes = exDoneState.finishedRoutes ∧
      s'.totalRouteTime = exDoneState.totalRouteTime ∧
      s'.currentRouteTime = exDoneState.currentRouteTime ∧
      s'.currentRoute = exDoneState.currentRoute ∧
      (∀ i j, s'.routeMat i j = exDoneState.routeMat i j) ∧
      (∀ i j, s'.transitTimes i j = exDoneState.transitTimes i j) ∧
      (∀ i j, s'.directlyConnected i j = exDoneState.directlyConnected i j) ∧
      (∀ i j, s'.hasPath i j = exDoneState.hasPath i j) ∧
      (∀ i j, s'.validTerms i j = exDoneState.validTerms i j) :=
  done_sentinel_noop exDoneState (by decide) rfl
    (statInv_init 2 exDrive exDemand 0 300 false 0 2 2 exBase (1/2) (1/2))
    (fun h => nomatch h)

/-- Unfolding of `spConcat` for a non-sentinel action. -/
theorem spConcat_cases (s : ScenState) (u v : Nat) (np : List Nat) :
    spConcat s (some (u, v)) np =
      if s.currentRoute = [] then some np
      else if s.currentRoute.head? = some v then some (np ++ s.currentRoute.tail)
      else if s.currentRoute.getLast? = some u then some (s.currentRoute ++ np.tail)
      else none := rfl

/-- Unfolding of `spAction` once the concatenation is known. -/
theorem spAction_eq_of_concat (s : ScenState) (a : Option (Nat × Nat))
    (np u' : List Nat) (h : spConcat s a np = some u') :
    spAction s a np =
      if u'.length ≤ s.n ∧ ∀ x ∈ u', x < s.n then some (spFinish s a u')
      else none := by
  unfold spAction
  rw [h]

/-- Unfolding of `spAction` when the concatenation fails. -/
theorem spAction_eq_none_of_concat (s : ScenState) (a : Option (Nat × Nat))
    (np : List Nat) (h : spConcat s a np = none) :
    spAction s a np = none := by
  unfold spAction
  rw [h]

/-- C5 counterexample: starting from a fresh 4-node scenario, the action
(0,1) starts the route [0,1]; for the follow-up action (1,0) both the
prepend case (v = 0 is the route's first stop) and the append case
(u = 1 is its last stop) hold at once — two of the three cases, not
exactly one — and the action nevertheless succeeds. -/
theorem extension_action_overlap_succeeds :
    ((spAction exState4 (some (0, 1)) [0, 1]).bind fun s1 =>
        spAction s1 (some (1, 0)) [1, 0]).isSome = true ∧
    (spAction exState4 (some (0, 1)) [0, 1]).map
        (fun s1 =>
          decide (s1.currentRoute.head? = some 0) &&
            decide (s1.currentRoute.getLast? = some 1) &&
            !decide (s1.currentRoute = [])) = some true := ⟨rfl, rfl⟩

/-- C5 (amended): for a scenario that is not done, a non-sentinel action
(u,v) succeeds exactly when at least one of the three cases holds — no
current route exists, v equals the current route's first stop (prepend),
or u equals its last stop (append); the prepend and append cases may hold
simultaneously, in which case the prepend is applied.  A pair satisfying
none of the cases makes the whole computation fail (`none`), so no
partial update is applied.  (Stated under the gather preconditions that
the path nodes and current route fit the scenario's padded width.) -/
theorem extension_action_validity (s : ScenState) (u v : Nat) (np : List Nat)
    (_hnd : s.isDone = false)
    (hlen : np.length + s.currentRoute.length ≤ s.n)
    (hnp : ∀ x ∈ np, x < s.n) (hcr : ∀ x ∈ s.currentRoute, x < s.n) :
    (spAction s (some (u, v)) np).isSome = true ↔
      (s.currentRoute = [] ∨ s.currentRoute.head? = some v ∨
        s.currentRoute.getLast? = some u) := by
  by_cases h1 : s.currentRoute = []
  · have hsc : spConcat s (some (u, v)) np = some np := by
      rw [spConcat_cases, if_pos h1]
    rw [spAction_eq_of_concat s _ np np hsc, if_pos]
    · simp [h1]
    · refine ⟨?_, hnp⟩
      omega
  · by_cases h2 : s.currentRoute.head? = some v
    · have hsc : spConcat s (some (u, v)) np = some (np ++ s.currentRoute.tail) := by
        rw [spConcat_cases, if_neg h1, if_pos h2]
      rw [spAction_eq_of_concat s _ np _ hsc, if_pos]
      · simp [h2]
      · constructor
        · have ht : s.currentRoute.tail.length = s.currentRoute.length - 1 :=
            List.length_tail s.currentRoute
          have hpos : 0 < s.currentRoute.length := List.length_pos.mpr h1
          rw [List.length_append]
          omega
        · intro x hx
          rcases List.mem_append.mp hx with hx | hx
          · exact hnp x hx
          · exact hcr x (List.mem_of_mem_tail hx)
    · by_cases h3 : s.currentRoute.getLast? = some u
      · have hsc : spConcat s (some (u, v)) np = some (s.currentRoute ++ np.tail) := by
          rw [spConcat_cases, if_neg h1, if_neg h2, if_pos h3]
        rw [spAction_eq_of_concat s _ np _ hsc, if_pos]
        · simp [h3]
        · constructor
          · have ht : np.tail.length = np.length - 1 := List.length_tail np
            rw [List.length_append]
            omega
          · intro x hx
            rcases List.mem_append.mp hx with hx | hx
            · exact hcr x hx
            · exact hnp x (List.mem_of_mem_tail hx)
      · have hsc : spConcat s (some (u, v)) np = none := by
          rw [spConcat_cases, if_neg h1, if_neg h2, if_neg h3]
        rw [spAction_eq_none_of_concat s _ np hsc]
        simp [h1, h2, h3]

/-- C5 witness: the validity equivalence at a fresh 4-node scenario where
the start-new-route case applies. -/
theorem extension_action_validity_witness :
    (spAction exState4 (some (0, 1)) [0, 1]).isSome = true ↔
      (exState4.currentRoute = [] ∨ exState4.currentRoute.head? = some 1 ∨
        exState4.currentRoute.getLast? = some 0) :=
  extension_action_validity exState4 0 1 [0, 1] (by decide) (by decide)
    (by decide) (by decide)

/-! Non-negativity facts for the cost computation. -/

theorem matSum_nonneg (n : Nat) (f : Nat → Nat → ℚ) (h : ∀ i j, 0 ≤ f i j) :
    0 ≤ matSum n f :=
  Finset.sum_nonneg fun i _ => Finset.sum_nonneg fun j _ => h i j

theorem foldl_max_le (l : List ℚ) : ∀ acc : ℚ, acc ≤ l.foldl max acc := by
  induction l with
  | nil => intro acc; exact le_refl _
  | cons x l ih => intro acc; exact le_trans (le_max_left acc x) (ih (max acc x))

theorem diameter_nonneg (s : ScenState) : 0 ≤ diameter s := foldl_max_le _ 0

theorem tripTimesOf_nonneg (s : ScenState)
    (htt : ∀ i j, 0 ≤ (s.transitTimes i j).untop' 0) :
    ∀ i j, 0 ≤ tripTimesOf s i j := by
  intro i j
  unfold tripTimesOf
  split
  · exact htt i j
  · exact le_refl 0

theorem nDisconnectedDemandEdges_nonneg (s : ScenState) :
    0 ≤ nDisconnectedDemandEdges s := by
  have hc : 0 ≤ matSum s.n fun i j =>
      if ¬ s.hasPath i j = true ∧ 0 < s.demand i j then (1 : ℚ) else 0 :=
    matSum_nonneg _ _ (by intro i j; split <;> norm_num)
  unfold nDisconnectedDemandEdges
  split
  · exact div_nonneg hc (by norm_num)
  · exact hc

theorem nDemandEdges_nonneg (s : ScenState) : 0 ≤ nDemandEdges s := by
  have hc : 0 ≤ matSum s.n fun i j => if 0 < s.demand i j then (1 : ℚ) else 0 :=
    matSum_nonneg _ _ (by intro i j; split <;> norm_num)
  unfold nDemandEdges
  split
  · have h1 : (0 : ℤ) ≤
        ⌈matSum s.n (fun i j => if 0 < s.demand i j then (1 : ℚ) else 0) / 2⌉ :=
      Int.ceil_nonneg (div_nonneg hc (by norm_num))
    exact_mod_cast h1
  · exact hc

theorem nUnstartedOf_nonneg (s : ScenState)
    (hplan : s.finishedRoutes.length +
      (if s.currentRoute = [] then 0 else 1) ≤ s.nRoutesToPlan) :
    0 ≤ nUnstartedOf s := by
  unfold nUnstartedOf
  by_cases hc : s.currentRoute = []
  · rw [if_pos hc] at hplan ⊢
    have h1 : s.finishedRoutes.length ≤ s.nRoutesToPlan := by omega
    have h2 : (s.finishedRoutes.length : ℚ) ≤ s.nRoutesToPlan := by exact_mod_cast h1
    linarith
  · rw [if_neg hc] at hplan ⊢
    have h2 : (s.finishedRoutes.length : ℚ) + 1 ≤ s.nRoutesToPlan := by
      exact_mod_cast hplan
    linarith

theorem nStopsOobOf_nonneg (minLen : Nat) (maxLen : Option Nat) (s : ScenState)
    (hplan : s.finishedRoutes.length +
      (if s.currentRoute = [] then 0 else 1) ≤ s.nRoutesToPlan) :
    0 ≤ nStopsOobOf minLen maxLen s := by
  unfold nStopsOobOf
  have h1 : (0 : ℚ) ≤ (((stateRoutes s).map (routeLenDelta minLen maxLen)).sum : ℕ) :=
    Nat.cast_nonneg _
  have h2 := nUnstartedOf_nonneg s hplan
  have h3 : (0 : ℚ) ≤ (minLen : ℚ) := Nat.cast_nonneg _
  have h4 := mul_nonneg h2 h3
  linarith

theorem constViolCostOf_nonneg (cfg : MyCostConfig) (s : ScenState)
    (cho : CostHelperOutput) (hd : 0 ≤ cho.nDisconnectedDemandEdges)
    (ho : 0 ≤ cho.nStopsOob) : 0 ≤ constViolCostOf cfg s cho := by
  have hfu : 0 ≤ fracUncoveredOf s cho := div_nonneg hd (nDemandEdges_nonneg s)
  have hdenom : 0 ≤ oobDenomOf cfg s := by
    unfold oobDenomOf
    split
    · norm_num
    · exact mul_nonneg (Nat.cast_nonneg _) (Nat.cast_nonneg _)
  have hfso : 0 ≤ fracStopsOobOf cfg s cho := div_nonneg ho hdenom
  unfold constViolCostOf
  have hs1 : 0 ≤ (if 0 < fracUncoveredOf s cho then (1 : ℚ) / 10 else 0) := by
    split <;> norm_num
  have hs2 : 0 ≤ (if cfg.ignoreStopsOob then 0
      else fracStopsOobOf cfg s cho +
        if 0 < fracStopsOobOf cfg s cho then (1 : ℚ) / 10 else 0) := by
    split
    · norm_num
    · have hs3 : 0 ≤ (if 0 < fracStopsOobOf cfg s cho then (1 : ℚ) / 10 else 0) := by
        split <;> norm_num
      linarith
  linarith

theorem costHelper_some (minLen : Nat) (maxLen : Option Nat) (s : ScenState)
    (cho : CostHelperOutput) (h : costHelper minLen maxLen s = some cho) :
    cho.totalDemandTime = matSum s.n (fun i j => s.demand i j * tripTimesOf s i j) ∧
    cho.totalRouteTime = s.fullRouteTime ∧
    cho.totalDemand = matSum s.n s.demand ∧
    cho.unservedDemand =
      matSum s.n (fun i j => s.demand i j * if s.hasPath i j then 0 else 1) ∧
    cho.tripTimes = tripTimesOf s ∧
    cho.nDisconnectedDemandEdges = nDisconnectedDemandEdges s ∧
    cho.nStopsOob = nStopsOobOf minLen maxLen s := by
  unfold costHelper at h
  split at h
  · obtain rfl : _ = cho := Option.some.inj h
    exact ⟨rfl, rfl, rfl, rfl, rfl, rfl, rfl⟩
  · exact absurd h (by simp)

theorem nDemandEdges_pos (s : ScenState)
    (hpos : 0 < matSum s.n s.demand) : 0 < nDemandEdges s := by
  have hex : ∃ i ∈ Finset.range s.n, ∃ j ∈ Finset.range s.n, 0 < s.demand i j := by
    by_contra hno
    push_neg at hno
    have hle : matSum s.n s.demand ≤ 0 := by
      refine Finset.sum_nonpos fun i hi => Finset.sum_nonpos fun j hj => ?_
      have h1 := hno i hi j hj
      linarith
    linarith
  have hc : 0 < matSum s.n fun i j => if 0 < s.demand i j then (1 : ℚ) else 0 := by
    obtain ⟨i, hi, j, hj, hij⟩ := hex
    refine Finset.sum_pos' (fun a _ => Finset.sum_nonneg fun b _ => ?_) ⟨i, hi, ?_⟩
    · dsimp only
      split <;> norm_num
    · refine Finset.sum_pos' (fun b _ => ?_) ⟨j, hj, ?_⟩
      · dsimp only
        split <;> norm_num
      · dsimp only
        rw [if_pos hij]
        norm_num
  unfold nDemandEdges
  split
  · have h1 : (0 : ℤ) <
        ⌈matSum s.n (fun i j => if 0 < s.demand i j then (1 : ℚ) else 0) / 2⌉ :=
      Int.ceil_pos.mpr (by positivity)
    exact_mod_cast h1
  · exact hc

/-- C8 counterexample: the scenario `exOverfull` satisfies the no-loop
invariant (its helper succeeds), has positive total demand, yet because
it holds one more route than planned, its out-of-bounds-stop count is
negative and the cost computed by `MyCostModule` is negative, so the
forward call fails its own non-negativity assertion instead of producing
a cost. -/
theorem my_cost_negative_when_overfull :
    (costHelper 2 none exOverfull).map
        (fun cho => (decide (cho.nStopsOob < 0),
          decide (myCostOf exCostConfig exOverfull cho false < 0))) =
      some (true, true) ∧
    myCostForward exCostConfig exOverfull false = none :=
  ⟨by with_unfolding_all rfl, by with_unfolding_all rfl⟩

/-- C8 (amended): for every state satisfying the no-loop invariant (the
cost helper succeeds) with non-negative demand, travel times, stored
route times and weights, with positive total demand (zero total demand
makes the source's unguarded division produce a non-finite cost, halting
the finiteness assertion), with a nonzero diameter when normalization is
enabled, and with no more routes than planned
(`n_finished + has_current <= n_routes_to_plan`), the `MyCostModule`
evaluation succeeds and its cost is non-negative, and the
`NikolicCostModule` cost value is non-negative; in the exact-rational
model every value these formulas produce is finite. -/
theorem cost_nonneg_within_plan (cfg : MyCostConfig) (extra : ℚ)
    (s : ScenState) (cho cho2 : CostHelperOutput) (noNorm : Bool)
    (hcho : costHelper cfg.minRouteLen cfg.maxRouteLen s = some cho)
    (hcho2 : costHelper 2 none s = some cho2)
    (hdem : ∀ i j, 0 ≤ s.demand i j)
    (hpos : 0 < cho.totalDemand)
    (hdia : noNorm = false → diameter s ≠ 0)
    (htt : ∀ i j, 0 ≤ (s.transitTimes i j).untop' 0)
    (hst : 0 ≤ s.totalRouteTime) (hct : 0 ≤ s.currentRouteTime)
    (hw1 : 0 ≤ s.demandTimeWeight) (hw2 : 0 ≤ s.routeTimeWeight)
    (hw3 : 0 ≤ cfg.constraintViolationWeight) (hextra : 0 ≤ extra)
    (hplan : s.finishedRoutes.length +
      (if s.currentRoute = [] then 0 else 1) ≤ s.nRoutesToPlan) :
    0 ≤ myCostOf cfg s cho noNorm ∧
      myCostForward cfg s noNorm = some (myCostOf cfg s cho noNorm) ∧
      0 ≤ nikolicCostOf extra s cho2 := by
  obtain ⟨e1, e2, e3, e4, e5, e6, e7⟩ := costHelper_some _ _ _ _ hcho
  obtain ⟨f1, f2, f3, f4, f5, f6, f7⟩ := costHelper_some _ _ _ _ hcho2
  have htrip := tripTimesOf_nonneg s htt
  have htdt : 0 ≤ matSum s.n fun i j => s.demand i j * tripTimesOf s i j :=
    matSum_nonneg _ _ fun i j => mul_nonneg (hdem i j) (htrip i j)
  have htd : 0 ≤ matSum s.n s.demand := matSum_nonneg _ _ hdem
  have huns : 0 ≤ matSum s.n
      (fun i j => s.demand i j * if s.hasPath i j then 0 else 1) :=
    matSum_nonneg _ _ fun i j => mul_nonneg (hdem i j) (by split <;> norm_num)
  have hfull : 0 ≤ s.fullRouteTime := add_nonneg hst hct
  have hmy : 0 ≤ myCostOf cfg s cho noNorm := by
    have hmdt : 0 ≤ meanDemandTime cho := by
      unfold meanDemandTime
      rw [e1, e3]
      exact div_nonneg htdt (by linarith)
    have hup : 0 ≤ unservedPenaltyOf s cho := by
      unfold unservedPenaltyOf
      rw [e3, e4]
      exact div_nonneg
        (mul_nonneg (mul_nonneg huns (diameter_nonneg s)) (by norm_num)) htd
    have hdc : 0 ≤ demandCostOf s cho noNorm := by
      unfold demandCostOf
      split
      · linarith
      · exact div_nonneg (by linarith) (diameter_nonneg s)
    have hrc : 0 ≤ routeCostOf s cho noNorm := by
      unfold routeCostOf
      rw [e2]
      split
      · exact hfull
      · refine div_nonneg hfull ?_
        have h5 := mul_nonneg (diameter_nonneg s)
          (Nat.cast_nonneg s.nRoutesToPlan : (0 : ℚ) ≤ _)
        linarith
    have hcv : 0 ≤ constViolCostOf cfg s cho := by
      refine constViolCostOf_nonneg cfg s cho ?_ ?_
      · rw [e6]
        exact nDisconnectedDemandEdges_nonneg s
      · rw [e7]
        exact nStopsOobOf_nonneg _ _ s hplan
    unfold myCostOf
    have hp1 := mul_nonneg hdc hw1
    have hp2 := mul_nonneg hrc hw2
    have hp3 := mul_nonneg hcv hw3
    linarith
  refine ⟨hmy, ?_, ?_⟩
  · unfold myCostForward
    rw [hcho]
    show (if myCostDivByZero s cho noNorm then none
      else if 0 ≤ myCostOf cfg s cho noNorm then some (myCostOf cfg s cho noNorm)
      else none) = some (myCostOf cfg s cho noNorm)
    have hnd : ¬ myCostDivByZero s cho noNorm := by
      unfold myCostDivByZero
      push_neg
      refine ⟨ne_of_gt hpos, ?_, ?_⟩
      · have h9 : 0 < matSum s.n s.demand := by
          rw [← e3]
          exact hpos
        exact ne_of_gt (nDemandEdges_pos s h9)
      · intro hnn hd0
        exact hdia hnn hd0
    rw [if_neg hnd, if_pos hmy]
  · have hsat : 0 ≤ cho2.totalDemand - cho2.unservedDemand := by
      rw [f3, f4]
      have hsplit : matSum s.n s.demand -
          matSum s.n (fun i j => s.demand i j * if s.hasPath i j then 0 else 1) =
          matSum s.n (fun i j => s.demand i j * if s.hasPath i j then 1 else 0) := by
        unfold matSum
        rw [← Finset.sum_sub_distrib]
        refine Finset.sum_congr rfl fun i _ => ?_
        rw [← Finset.sum_sub_distrib]
        refine Finset.sum_congr rfl fun j _ => ?_
        by_cases hp : s.hasPath i j <;> simp [hp]
      rw [hsplit]
      exact matSum_nonneg _ _ fun i j =>
        mul_nonneg (hdem i j) (by split <;> norm_num)
    have hw2n : 0 ≤ nikolicW2 extra s cho2 := by
      unfold nikolicW2
      have hbr : 0 ≤ (if |cho2.totalDemand - cho2.unservedDemand| ≤ 1 / 100000000
          then matSum s.n cho2.tripTimes / ((s.n : ℚ) * s.n)
          else cho2.totalDemandTime / (cho2.totalDemand - cho2.unservedDemand)) := by
        split
        · refine div_nonneg ?_ (mul_nonneg (Nat.cast_nonneg _) (Nat.cast_nonneg _))
          rw [f5]
          exact matSum_nonneg _ _ htrip
        · rw [f1]
          exact div_nonneg htdt hsat
      linarith
    have hu2 : 0 ≤ cho2.unservedDemand := by
      rw [f4]
      exact huns
    have ht2 : 0 ≤ cho2.totalDemandTime := by
      rw [f1]
      exact htdt
    unfold nikolicCostOf
    have hp4 := mul_nonneg hw2n hu2
    linarith

/-- C8 witness: both cost modules are non-negative on a fresh 2-node
scenario with one route to plan. -/
theorem cost_nonneg_within_plan_witness :
    0 ≤ myCostOf exCostConfig exState ((costHelper 2 none exState).getD dummyCho) false ∧
      myCostForward exCostConfig exState false =
        some (myCostOf exCostConfig exState
          ((costHelper 2 none exState).getD dummyCho) false) ∧
      0 ≤ nikolicCostOf 3000 exState ((costHelper 2 none exState).getD dummyCho) :=
  cost_nonneg_within_plan exCostConfig 3000 exState
    ((costHelper 2 none exState).getD dummyCho)
    ((costHelper 2 none exState).getD dummyCho) false rfl rfl
    (by intro i j; show 0 ≤ exDemand i j; unfold exDemand; split <;> norm_num)
    (by have h20 : ((costHelper 2 none exState).getD dummyCho).totalDemand = 20 := by
          with_unfolding_all rfl
        rw [h20]
        norm_num)
    (by intro _
        have h100 : diameter exState = 100 := by with_unfolding_all rfl
        rw [h100]
        norm_num)
    (by intro i j
        show 0 ≤ (initRouteMat i j).untop' 0
        unfold initRouteMat
        split
        · rw [show (0 : WithTop ℚ) = ((0 : ℚ) : WithTop ℚ) from rfl,
            WithTop.untop'_coe]
        · rw [WithTop.untop'_top])
    (le_refl 0) (le_refl 0)
    (by show (0 : ℚ) ≤ 1 / 2; norm_num)
    (by show (0 : ℚ) ≤ 1 / 2; norm_num)
    (by show (0 : ℚ) ≤ 5; norm_num)
    (by norm_num) (by decide)

/-- C10 witness: the bucket partition at a concrete helper run. -/
theorem trips_at_transfers_partition_witness :
    ((costHelper 2 none exState).getD dummyCho).tripsAtTransfers.1 +
      ((costHelper 2 none exState).getD dummyCho).tripsAtTransfers.2.1 +
      ((costHelper 2 none exState).getD dummyCho).tripsAtTransfers.2.2.1 +
      ((costHelper 2 none exState).getD dummyCho).tripsAtTransfers.2.2.2 =
      ((costHelper 2 none exState).getD dummyCho).totalDemand :=
  trips_at_transfers_partition 2 none exState _ rfl

end TransitSim
